import Mathlib

set_option maxRecDepth 4000

/-!
Shallow embedding of `bouncy_ball_engine.py`: a single elastic ball bouncing
inside a static circular arena, with a FIFO motion trail and time-decayed
impact effects.  Python floats are modelled as real numbers; the drawing,
window and event-loop glue is out of scope.
-/

namespace BouncyBall

/-- Palette colors are RGB triples (source: `COLORS` entries). -/
abbrev Color : Type := ℕ × ℕ × ℕ

/-- An impact record `(pos, remaining_life, color)` (source: `TrailManager.impacts`). -/
abbrev Impact : Type := (ℝ × ℝ) × ℝ × Color

/-- Source constant `BALL_BASE_RADIUS = 15`. -/
noncomputable def BALL_BASE_RADIUS : ℝ := 15

/-- Source constant `BALL_MAX_RATIO = 0.8`. -/
noncomputable def BALL_MAX_RATIO : ℝ := 0.8

/-- Source constant `GROWTH_PER_SEC = 12.0`. -/
noncomputable def GROWTH_PER_SEC : ℝ := 12.0

/-- Source constant `RESTIUTION = 0.95` (sic, the source misspells restitution). -/
noncomputable def RESTIUTION : ℝ := 0.95

/-- Source constant `TANGENTIAL_FRICTION = 0.99`. -/
noncomputable def TANGENTIAL_FRICTION : ℝ := 0.99

/-- Source constant `LINEAR_FRICTION = 0.999`. -/
noncomputable def LINEAR_FRICTION : ℝ := 0.999

/-- Source constant `GRAVITY = 200.0`. -/
noncomputable def GRAVITY : ℝ := 200.0

/-- Source constant `TRAIL_LEN = 140`. -/
def TRAIL_LEN : ℕ := 140

/-- Source constant `IMPACT_LIFETIME = 0.6`. -/
noncomputable def IMPACT_LIFETIME : ℝ := 0.6

/-- Source constant `COLORS`. -/
def COLORS : List Color :=
  [(255, 0, 0), (0, 255, 0), (0, 0, 255),
   (255, 255, 0), (255, 0, 255), (0, 255, 255)]

/-- The circular arena (source: `Arena` dataclass; `draw` is out of scope). -/
structure Arena where
  cx : ℝ
  cy : ℝ
  radius : ℝ

/-- Trail state (source: `TrailManager.__init__`): the motion trail is a
`deque(maxlen=TRAIL_LEN)` modelled as a list that keeps at most its last
`TRAIL_LEN` elements, and `impacts` is a plain list. -/
structure TrailManager where
  motion_trail : List (ℝ × ℝ)
  impacts : List Impact

/-- Source `TrailManager.__init__`: empty trail, empty impact list. -/
def TrailManager.init : TrailManager := ⟨[], []⟩

/-- Source `TrailManager.push_position`: `deque.append` on a deque with
`maxlen=TRAIL_LEN` appends on the right and evicts from the left whenever
the length would exceed the capacity. -/
def TrailManager.push_position (t : TrailManager) (x y : ℝ) : TrailManager :=
  { t with motion_trail :=
      (t.motion_trail ++ [(x, y)]).drop ((t.motion_trail ++ [(x, y)]).length - TRAIL_LEN) }

/-- Source `TrailManager.add_impact`: append `(pos, IMPACT_LIFETIME, color)`. -/
noncomputable def TrailManager.add_impact (t : TrailManager) (pos : ℝ × ℝ) (color : Color) :
    TrailManager :=
  { t with impacts := t.impacts ++ [(pos, IMPACT_LIFETIME, color)] }

/-- Source `TrailManager.update`: decrement each impact's remaining life by
`dt` and keep exactly those whose decremented life is strictly positive
(the rebuilt `alive` list, in order). -/
noncomputable def TrailManager.update (t : TrailManager) (dt : ℝ) : TrailManager :=
  { t with impacts :=
      t.impacts.filterMap fun i =>
        if 0 < i.2.1 - dt then some (i.1, i.2.1 - dt, i.2.2) else none }

/-- Repeated `TrailManager.update` over a list of frame times. -/
noncomputable def TrailManager.runUpdates (t : TrailManager) (dts : List ℝ) : TrailManager :=
  dts.foldl TrailManager.update t

/-- Repeated `TrailManager.push_position` over a list of positions. -/
def TrailManager.runPushes (t : TrailManager) (ps : List (ℝ × ℝ)) : TrailManager :=
  ps.foldl (fun s p => s.push_position p.1 p.2) t

/-- The suffix of the last `n` elements of a list (the contents of a
`deque(maxlen=n)` after appending the whole list). -/
def lastN (n : ℕ) (l : List α) : List α := l.drop (l.length - n)

lemma length_lastN (n : ℕ) (l : List α) : (lastN n l).length = l.length - (l.length - n) := by
  simp [lastN]

lemma lastN_append_left (n : ℕ) (l₁ l₂ : List α) :
    lastN n (lastN n l₁ ++ l₂) = lastN n (l₁ ++ l₂) := by
  unfold lastN
  rw [List.drop_append_eq_append_drop, List.drop_append_eq_append_drop,
    List.drop_drop, List.length_append, List.length_append, List.length_drop]
  congr 1
  · congr 1
    omega
  · congr 1
    omega

lemma push_position_motion_trail (t : TrailManager) (x y : ℝ) :
    (t.push_position x y).motion_trail = lastN TRAIL_LEN (t.motion_trail ++ [(x, y)]) := by
  simp only [TrailManager.push_position, lastN]

lemma runPushes_motion_trail (ps : List (ℝ × ℝ)) :
    ∀ t : TrailManager, t.motion_trail.length ≤ TRAIL_LEN →
      (t.runPushes ps).motion_trail = lastN TRAIL_LEN (t.motion_trail ++ ps) := by
  induction ps with
  | nil =>
      intro t ht
      simp [TrailManager.runPushes, lastN, Nat.sub_eq_zero_of_le ht]
  | cons p ps ih =>
      intro t ht
      have hstep : TrailManager.runPushes t (p :: ps) =
          TrailManager.runPushes (t.push_position p.1 p.2) ps := rfl
      rw [hstep, ih _ (by simp [push_position_motion_trail, length_lastN]; omega)]
      rw [push_position_motion_trail, lastN_append_left]
      simp

/-- Ball state (source: `Ball.__init__`): position, velocity, radius, palette
index, the arena the ball is confined to, and the owned trail manager.  The
randomized initial values are irrelevant to the claims, so an arbitrary state
is allowed. -/
structure Ball where
  x : ℝ
  y : ℝ
  vx : ℝ
  vy : ℝ
  radius : ℝ
  color_index : ℕ
  arena : Arena
  trails : TrailManager

/-- Source `Ball.color`: `COLORS[self.color_index]` (total via `getD`; the
palette index stays below `COLORS.length` in every reachable state). -/
def Ball.color (b : Ball) : Color := COLORS.getD b.color_index (0, 0, 0)

/-- Source `Ball.cycle_color`: advance the palette index modulo the palette
length. -/
def Ball.cycle_color (b : Ball) : Ball :=
  { b with color_index := (b.color_index + 1) % COLORS.length }

/-- Source `Ball._reflect_on_circle`: decompose the velocity into normal and
tangential components, negate and scale the normal component by `RESTIUTION`,
scale the tangential component by `TANGENTIAL_FRICTION`, and recombine. -/
noncomputable def Ball.reflect_on_circle (b : Ball) (normal_x normal_y : ℝ) : Ball :=
  { b with
    vx := (-(b.vx * normal_x + b.vy * normal_y) * RESTIUTION) * normal_x +
      (b.vx - (b.vx * normal_x + b.vy * normal_y) * normal_x) * TANGENTIAL_FRICTION
    vy := (-(b.vx * normal_x + b.vy * normal_y) * RESTIUTION) * normal_y +
      (b.vy - (b.vx * normal_x + b.vy * normal_y) * normal_y) * TANGENTIAL_FRICTION }

/-- Source `Ball.update` lines 136-138: grow the radius toward
`arena.radius * BALL_MAX_RATIO`, clamped at that cap. -/
noncomputable def Ball.grownRadius (b : Ball) (dt : ℝ) : ℝ :=
  if b.radius < b.arena.radius * BALL_MAX_RATIO then
    min (b.arena.radius * BALL_MAX_RATIO) (b.radius + GROWTH_PER_SEC * dt)
  else b.radius

/-- Source `Ball.update` lines 128-134: gravity on `vy`, then linear friction
on both velocity components (once per call, not scaled by `dt`), then explicit
Euler integration of the position. -/
noncomputable def Ball.afterIntegration (b : Ball) (dt : ℝ) : Ball :=
  { b with
    vx := b.vx * LINEAR_FRICTION
    vy := (b.vy + GRAVITY * dt) * LINEAR_FRICTION
    x := b.x + b.vx * LINEAR_FRICTION * dt
    y := b.y + (b.vy + GRAVITY * dt) * LINEAR_FRICTION * dt }

/-- Source `Ball.update` lines 140-158: boundary test on the already
integrated and grown state.  If the center distance exceeds
`arena.radius - radius`, compute the outward normal (falling back to `(1, 0)`
when the distance is exactly zero), clamp the position onto the boundary
circle, reflect the velocity, record an impact with the pre-cycle color, and
advance the palette index. -/
noncomputable def Ball.handleBoundary (b : Ball) : Ball :=
  let dx := b.x - b.arena.cx
  let dy := b.y - b.arena.cy
  let dist := Real.sqrt (dx ^ 2 + dy ^ 2)
  let max_dist := b.arena.radius - b.radius
  if max_dist < dist then
    let n : ℝ × ℝ := if dist = 0 then (1, 0) else (dx / dist, dy / dist)
    let moved := { b with x := b.arena.cx + n.1 * max_dist, y := b.arena.cy + n.2 * max_dist }
    let reflected := moved.reflect_on_circle n.1 n.2
    let impacted :=
      { reflected with trails := reflected.trails.add_impact (reflected.x, reflected.y) reflected.color }
    impacted.cycle_color
  else b

/-- Source `Ball.update` lines 136-161: radius growth, boundary handling, and
the unconditional trail bookkeeping (`push_position` with the possibly clamped
position, then `trails.update dt`). -/
noncomputable def Ball.postKinematics (b : Ball) (dt : ℝ) : Ball :=
  let b1 := Ball.handleBoundary { b with radius := b.grownRadius dt }
  { b1 with trails := TrailManager.update (b1.trails.push_position b1.x b1.y) dt }

/-- Source `Ball.update`: the full per-frame step. -/
noncomputable def Ball.update (b : Ball) (dt : ℝ) : Ball :=
  Ball.postKinematics (b.afterIntegration dt) dt

/-- Repeated `Ball.update` over a list of frame times. -/
noncomputable def Ball.runUpdates (b : Ball) (dts : List ℝ) : Ball :=
  dts.foldl Ball.update b

/-- The boundary-collision test of `Ball.update`, expressed on the pre-update
state: the integrated position's distance to the arena center exceeds
`arena.radius` minus the grown radius. -/
noncomputable def Ball.hitsBoundary (b : Ball) (dt : ℝ) : Prop :=
  b.arena.radius - b.grownRadius dt <
    Real.sqrt ((b.x + b.vx * LINEAR_FRICTION * dt - b.arena.cx) ^ 2 +
      (b.y + (b.vy + GRAVITY * dt) * LINEAR_FRICTION * dt - b.arena.cy) ^ 2)

/-- The containment invariant from the spec: the distance from the ball's
position to the arena center is at most `arena.radius - radius`. -/
noncomputable def Ball.containment (b : Ball) : Prop :=
  Real.sqrt ((b.x - b.arena.cx) ^ 2 + (b.y - b.arena.cy) ^ 2) ≤ b.arena.radius - b.radius

lemma update_impacts_map_filter (l : List Impact) (dt : ℝ) :
    (l.filterMap fun i => if 0 < i.2.1 - dt then some (i.1, i.2.1 - dt, i.2.2) else none) =
      (l.map fun i => (i.1, i.2.1 - dt, i.2.2)).filter fun i => decide (0 < i.2.1) := by
  induction l with
  | nil => rfl
  | cons i l ih =>
      simp only [sub_pos] at ih ⊢
      by_cases h : dt < i.2.1 <;>
        simp [List.filterMap_cons, List.filter_cons, h, ih]

lemma runUpdates_impacts_nil (dts : List ℝ) :
    ∀ t : TrailManager, t.impacts = [] → (t.runUpdates dts).impacts = [] := by
  induction dts with
  | nil => exact fun t ht => ht
  | cons d dts ih =>
      intro t ht
      have hstep : TrailManager.runUpdates t (d :: dts) =
          TrailManager.runUpdates (t.update d) dts := rfl
      rw [hstep]
      exact ih _ (by simp [TrailManager.update, ht])

lemma runUpdates_single_impact (dts : List ℝ) :
    ∀ (m : List (ℝ × ℝ)) (p : ℝ × ℝ) (life : ℝ) (c : Color),
      (TrailManager.runUpdates ⟨m, [(p, life, c)]⟩ dts).impacts = [] ∨
      ((TrailManager.runUpdates ⟨m, [(p, life, c)]⟩ dts).impacts = [(p, life - dts.sum, c)] ∧
        (dts = [] ∨ 0 < life - dts.sum)) := by
  induction dts with
  | nil =>
      intro m p life c
      right
      refine ⟨by simp [TrailManager.runUpdates], Or.inl rfl⟩
  | cons d dts ih =>
      intro m p life c
      have hstep : TrailManager.runUpdates ⟨m, [(p, life, c)]⟩ (d :: dts) =
          TrailManager.runUpdates (TrailManager.update ⟨m, [(p, life, c)]⟩ d) dts := rfl
      by_cases h : d < life
      · have hupd : TrailManager.update ⟨m, [(p, life, c)]⟩ d = ⟨m, [(p, life - d, c)]⟩ := by
          simp [TrailManager.update, h]
        rw [hstep, hupd]
        rcases ih m p (life - d) c with h1 | ⟨h2, h3⟩
        · exact Or.inl h1
        · refine Or.inr ⟨?_, Or.inr ?_⟩
          · rw [List.sum_cons, ← sub_sub]
            exact h2
          · rw [List.sum_cons, ← sub_sub]
            rcases h3 with h3 | h3
            · subst h3
              simpa using h
            · exact h3
      · have hupd : TrailManager.update ⟨m, [(p, life, c)]⟩ d = ⟨m, []⟩ := by
          simp [TrailManager.update, h]
        rw [hstep, hupd]
        exact Or.inl (runUpdates_impacts_nil dts _ rfl)

/-- C10: `TrailManager.update` changes only the impact list and leaves the
motion trail untouched; `TrailManager.push_position` changes only the motion
trail and leaves the impact list untouched. -/
theorem trail_frame_conditions :
    ∀ (t : TrailManager) (dt x y : ℝ),
      (t.update dt).motion_trail = t.motion_trail ∧
        (t.push_position x y).impacts = t.impacts :=
  fun _ _ _ _ => ⟨rfl, rfl⟩

/-- C6: after more than `TRAIL_LEN` pushes from the initial state the motion
trail holds exactly the `TRAIL_LEN` most recent pushes in oldest-first order;
a push at capacity evicts exactly the oldest sample, and the capacity is never
exceeded. -/
theorem motion_trail_fifo (ps : List (ℝ × ℝ)) (h : TRAIL_LEN < ps.length) :
    (TrailManager.init.runPushes ps).motion_trail = ps.drop (ps.length - TRAIL_LEN)
    ∧ (TrailManager.init.runPushes ps).motion_trail.length = TRAIL_LEN
    ∧ (∀ (t : TrailManager) (x y : ℝ), t.motion_trail.length = TRAIL_LEN →
        (t.push_position x y).motion_trail = t.motion_trail.tail ++ [(x, y)])
    ∧ (∀ (t : TrailManager) (x y : ℝ), t.motion_trail.length ≤ TRAIL_LEN →
        (t.push_position x y).motion_trail.length ≤ TRAIL_LEN) := by
  have hmain : (TrailManager.init.runPushes ps).motion_trail =
      ps.drop (ps.length - TRAIL_LEN) := by
    rw [runPushes_motion_trail ps TrailManager.init (by simp [TrailManager.init])]
    simp [TrailManager.init, lastN]
  refine ⟨hmain, ?_, ?_, ?_⟩
  · rw [hmain]
    simp only [List.length_drop]
    unfold TRAIL_LEN at h ⊢
    omega
  · intro t x y ht
    rw [push_position_motion_trail]
    unfold lastN
    have h1 : (t.motion_trail ++ [(x, y)]).length - TRAIL_LEN = 1 := by
      simp [ht]
    have h2 : 1 - t.motion_trail.length = 0 := by
      rw [ht]
      rfl
    rw [h1, List.drop_append_eq_append_drop, h2, List.drop_zero, List.drop_one]
  · intro t x y ht
    rw [push_position_motion_trail, length_lastN]
    omega

/-- Witness for C6 at a concrete list of 141 pushes. -/
theorem motion_trail_fifo_witness :
    TRAIL_LEN < (List.replicate 141 ((0 : ℝ), (0 : ℝ))).length
    ∧ ((TrailManager.init.runPushes (List.replicate 141 ((0 : ℝ), (0 : ℝ)))).motion_trail =
          (List.replicate 141 ((0 : ℝ), (0 : ℝ))).drop
            ((List.replicate 141 ((0 : ℝ), (0 : ℝ))).length - TRAIL_LEN)
      ∧ (TrailManager.init.runPushes (List.replicate 141 ((0 : ℝ), (0 : ℝ)))).motion_trail.length =
          TRAIL_LEN
      ∧ (∀ (t : TrailManager) (x y : ℝ), t.motion_trail.length = TRAIL_LEN →
          (t.push_position x y).motion_trail = t.motion_trail.tail ++ [(x, y)])
      ∧ (∀ (t : TrailManager) (x y : ℝ), t.motion_trail.length ≤ TRAIL_LEN →
          (t.push_position x y).motion_trail.length ≤ TRAIL_LEN)) :=
  ⟨by simp [TRAIL_LEN], motion_trail_fifo _ (by simp [TRAIL_LEN])⟩

/-- C7: `TrailManager.update` decrements every impact's remaining life by `dt`
and retains, in order, exactly those with strictly positive decremented life;
an impact is still present after `update (IMPACT_LIFETIME / 2)` and is gone
once the cumulative update time exceeds `IMPACT_LIFETIME`. -/
theorem impact_lifetime_decay (t : TrailManager) (dt : ℝ) (p : ℝ × ℝ) (c : Color)
    (dts : List ℝ) (hsum : IMPACT_LIFETIME < dts.sum) :
    (t.update dt).impacts =
      ((t.impacts.map fun i => (i.1, i.2.1 - dt, i.2.2)).filter fun i => decide (0 < i.2.1))
    ∧ (p, IMPACT_LIFETIME / 2, c) ∈ ((t.add_impact p c).update (IMPACT_LIFETIME / 2)).impacts
    ∧ ((TrailManager.init.add_impact p c).runUpdates dts).impacts = [] := by
  refine ⟨update_impacts_map_filter t.impacts dt, ?_, ?_⟩
  · have hpos : IMPACT_LIFETIME / 2 < IMPACT_LIFETIME := by
      norm_num [IMPACT_LIFETIME]
    have heq : IMPACT_LIFETIME - IMPACT_LIFETIME / 2 = IMPACT_LIFETIME / 2 := by ring
    have hsplit : ((t.add_impact p c).update (IMPACT_LIFETIME / 2)).impacts =
        (t.impacts.filterMap fun i =>
          if 0 < i.2.1 - IMPACT_LIFETIME / 2 then
            some (i.1, i.2.1 - IMPACT_LIFETIME / 2, i.2.2) else none) ++
          [(p, IMPACT_LIFETIME - IMPACT_LIFETIME / 2, c)] := by
      simp [TrailManager.update, TrailManager.add_impact, List.filterMap_append, hpos]
    rw [hsplit, heq]
    exact List.mem_append_right _ (List.mem_singleton_self _)
  · rcases runUpdates_single_impact dts [] p IMPACT_LIFETIME c with h1 | ⟨_, h3⟩
    · exact h1
    · exfalso
      rcases h3 with h3 | h3
      · subst h3
        norm_num [IMPACT_LIFETIME] at hsum
      · linarith

/-- Witness for C7 at concrete inputs. -/
theorem impact_lifetime_decay_witness :
    IMPACT_LIFETIME < List.sum [(1 : ℝ)]
    ∧ ((TrailManager.init.update 0).impacts =
        ((TrailManager.init.impacts.map fun i => (i.1, i.2.1 - 0, i.2.2)).filter
          fun i => decide (0 < i.2.1))
      ∧ (((0 : ℝ), (0 : ℝ)), IMPACT_LIFETIME / 2, ((0 : ℕ), (0 : ℕ), (0 : ℕ))) ∈
          ((TrailManager.init.add_impact ((0 : ℝ), (0 : ℝ)) ((0 : ℕ), (0 : ℕ), (0 : ℕ))).update
            (IMPACT_LIFETIME / 2)).impacts
      ∧ ((TrailManager.init.add_impact ((0 : ℝ), (0 : ℝ))
            ((0 : ℕ), (0 : ℕ), (0 : ℕ))).runUpdates [(1 : ℝ)]).impacts = []) :=
  ⟨by norm_num [IMPACT_LIFETIME], impact_lifetime_decay TrailManager.init 0 ((0 : ℝ), (0 : ℝ))
    ((0 : ℕ), (0 : ℕ), (0 : ℕ)) [(1 : ℝ)] (by norm_num [IMPACT_LIFETIME])⟩

@[simp] lemma cycle_color_x (b : Ball) : b.cycle_color.x = b.x := rfl

@[simp] lemma cycle_color_y (b : Ball) : b.cycle_color.y = b.y := rfl

@[simp] lemma cycle_color_vx (b : Ball) : b.cycle_color.vx = b.vx := rfl

@[simp] lemma cycle_color_vy (b : Ball) : b.cycle_color.vy = b.vy := rfl

@[simp] lemma cycle_color_radius (b : Ball) : b.cycle_color.radius = b.radius := rfl

@[simp] lemma cycle_color_arena (b : Ball) : b.cycle_color.arena = b.arena := rfl

@[simp] lemma cycle_color_color_index (b : Ball) :
    b.cycle_color.color_index = (b.color_index + 1) % COLORS.length := rfl

@[simp] lemma reflect_x (b : Ball) (nx ny : ℝ) : (b.reflect_on_circle nx ny).x = b.x := rfl

@[simp] lemma reflect_y (b : Ball) (nx ny : ℝ) : (b.reflect_on_circle nx ny).y = b.y := rfl

@[simp] lemma reflect_radius (b : Ball) (nx ny : ℝ) :
    (b.reflect_on_circle nx ny).radius = b.radius := rfl

@[simp] lemma reflect_arena (b : Ball) (nx ny : ℝ) :
    (b.reflect_on_circle nx ny).arena = b.arena := rfl

@[simp] lemma reflect_color_index (b : Ball) (nx ny : ℝ) :
    (b.reflect_on_circle nx ny).color_index = b.color_index := rfl

lemma reflect_vx (b : Ball) (nx ny : ℝ) :
    (b.reflect_on_circle nx ny).vx =
      (-(b.vx * nx + b.vy * ny) * RESTIUTION) * nx +
        (b.vx - (b.vx * nx + b.vy * ny) * nx) * TANGENTIAL_FRICTION := rfl

lemma reflect_vy (b : Ball) (nx ny : ℝ) :
    (b.reflect_on_circle nx ny).vy =
      (-(b.vx * nx + b.vy * ny) * RESTIUTION) * ny +
        (b.vy - (b.vx * nx + b.vy * ny) * ny) * TANGENTIAL_FRICTION := rfl

lemma grownRadius_mono (b : Ball) (dt : ℝ) (h : 0 ≤ dt) : b.radius ≤ b.grownRadius dt := by
  have hg : 0 ≤ GROWTH_PER_SEC * dt := by
    have : (0 : ℝ) ≤ GROWTH_PER_SEC := by norm_num [GROWTH_PER_SEC]
    positivity
  unfold Ball.grownRadius
  split_ifs with hlt
  · exact le_min hlt.le (by linarith)
  · exact le_rfl

lemma grownRadius_le_add (b : Ball) (dt : ℝ) (h : 0 ≤ dt) :
    b.grownRadius dt ≤ b.radius + GROWTH_PER_SEC * dt := by
  have hg : 0 ≤ GROWTH_PER_SEC * dt := by
    have : (0 : ℝ) ≤ GROWTH_PER_SEC := by norm_num [GROWTH_PER_SEC]
    positivity
  unfold Ball.grownRadius
  split_ifs with hlt
  · exact min_le_right _ _
  · linarith

lemma grownRadius_le_cap (b : Ball) (dt : ℝ)
    (h : b.radius ≤ b.arena.radius * BALL_MAX_RATIO) :
    b.grownRadius dt ≤ b.arena.radius * BALL_MAX_RATIO := by
  unfold Ball.grownRadius
  split_ifs with hlt
  · exact min_le_left _ _
  · exact h

lemma grownRadius_le_arena (b : Ball) (dt : ℝ) (hR : 0 ≤ b.arena.radius)
    (hrad : b.radius ≤ b.arena.radius) : b.grownRadius dt ≤ b.arena.radius := by
  unfold Ball.grownRadius
  split_ifs with hlt
  · refine (min_le_left _ _).trans ?_
    norm_num [ BALL_MAX_RATIO]
    linarith
  · exact hrad

@[simp] lemma afterIntegration_x (b : Ball) (dt : ℝ) :
    (b.afterIntegration dt).x = b.x + b.vx * LINEAR_FRICTION * dt := rfl

@[simp] lemma afterIntegration_y (b : Ball) (dt : ℝ) :
    (b.afterIntegration dt).y = b.y + (b.vy + GRAVITY * dt) * LINEAR_FRICTION * dt := rfl

@[simp] lemma afterIntegration_vx (b : Ball) (dt : ℝ) :
    (b.afterIntegration dt).vx = b.vx * LINEAR_FRICTION := rfl

@[simp] lemma afterIntegration_vy (b : Ball) (dt : ℝ) :
    (b.afterIntegration dt).vy = (b.vy + GRAVITY * dt) * LINEAR_FRICTION := rfl

@[simp] lemma afterIntegration_radius (b : Ball) (dt : ℝ) :
    (b.afterIntegration dt).radius = b.radius := rfl

@[simp] lemma afterIntegration_arena (b : Ball) (dt : ℝ) :
    (b.afterIntegration dt).arena = b.arena := rfl

@[simp] lemma afterIntegration_color_index (b : Ball) (dt : ℝ) :
    (b.afterIntegration dt).color_index = b.color_index := rfl

@[simp] lemma afterIntegration_trails (b : Ball) (dt : ℝ) :
    (b.afterIntegration dt).trails = b.trails := rfl

lemma grownRadius_afterIntegration (b : Ball) (dt dt₂ : ℝ) :
    (b.afterIntegration dt).grownRadius dt₂ = b.grownRadius dt₂ := rfl

lemma handleBoundary_radius (b : Ball) : b.handleBoundary.radius = b.radius := by
  simp only [Ball.handleBoundary]
  split <;> simp [Ball.reflect_on_circle]

lemma handleBoundary_arena (b : Ball) : b.handleBoundary.arena = b.arena := by
  simp only [Ball.handleBoundary]
  split <;> simp [Ball.reflect_on_circle]

lemma handleBoundary_color_index (b : Ball) :
    b.handleBoundary.color_index =
      if b.arena.radius - b.radius <
          Real.sqrt ((b.x - b.arena.cx) ^ 2 + (b.y - b.arena.cy) ^ 2) then
        (b.color_index + 1) % COLORS.length
      else b.color_index := by
  simp only [Ball.handleBoundary]
  split_ifs with h <;> simp [Ball.reflect_on_circle]

lemma handleBoundary_eq_self (b : Ball)
    (h : Real.sqrt ((b.x - b.arena.cx) ^ 2 + (b.y - b.arena.cy) ^ 2) ≤
      b.arena.radius - b.radius) : b.handleBoundary = b := by
  simp only [Ball.handleBoundary]
  rw [if_neg (not_lt.mpr h)]

lemma update_radius (b : Ball) (dt : ℝ) : (b.update dt).radius = b.grownRadius dt := by
  have h1 : (b.update dt).radius =
      (Ball.handleBoundary
        { b.afterIntegration dt with radius := (b.afterIntegration dt).grownRadius dt }).radius :=
    rfl
  rw [h1, handleBoundary_radius]
  rfl

lemma update_arena (b : Ball) (dt : ℝ) : (b.update dt).arena = b.arena := by
  have h1 : (b.update dt).arena =
      (Ball.handleBoundary
        { b.afterIntegration dt with radius := (b.afterIntegration dt).grownRadius dt }).arena :=
    rfl
  rw [h1, handleBoundary_arena]
  rfl

lemma update_color_index_hits (b : Ball) (dt : ℝ) (h : b.hitsBoundary dt) :
    (b.update dt).color_index = (b.color_index + 1) % COLORS.length := by
  have h1 : (b.update dt).color_index =
      (Ball.handleBoundary
        { b.afterIntegration dt with
          radius := (b.afterIntegration dt).grownRadius dt }).color_index :=
    rfl
  rw [h1, handleBoundary_color_index]
  dsimp only
  simp only [afterIntegration_x, afterIntegration_y, afterIntegration_arena,
    afterIntegration_color_index, grownRadius_afterIntegration]
  unfold Ball.hitsBoundary at h
  rw [if_pos h]

lemma update_color_index_miss (b : Ball) (dt : ℝ) (h : ¬ b.hitsBoundary dt) :
    (b.update dt).color_index = b.color_index := by
  have h1 : (b.update dt).color_index =
      (Ball.handleBoundary
        { b.afterIntegration dt with
          radius := (b.afterIntegration dt).grownRadius dt }).color_index :=
    rfl
  rw [h1, handleBoundary_color_index]
  dsimp only
  simp only [afterIntegration_x, afterIntegration_y, afterIntegration_arena,
    afterIntegration_color_index, grownRadius_afterIntegration]
  unfold Ball.hitsBoundary at h
  rw [if_neg h]

lemma runUpdates_arena (dts : List ℝ) :
    ∀ b : Ball, (b.runUpdates dts).arena = b.arena := by
  induction dts with
  | nil => exact fun b => rfl
  | cons d dts ih =>
      intro b
      have hstep : Ball.runUpdates b (d :: dts) = Ball.runUpdates (b.update d) dts := rfl
      rw [hstep, ih, update_arena]

lemma runUpdates_radius (dts : List ℝ) :
    ∀ b : Ball, (∀ d ∈ dts, 0 ≤ d) → b.radius ≤ b.arena.radius * BALL_MAX_RATIO →
      b.radius ≤ (b.runUpdates dts).radius ∧
        (b.runUpdates dts).radius ≤ b.arena.radius * BALL_MAX_RATIO := by
  induction dts with
  | nil => exact fun b _ hc => ⟨le_rfl, hc⟩
  | cons d dts ih =>
      intro b h hc
      have hd : 0 ≤ d := h d (List.mem_cons_self d dts)
      have hstep : Ball.runUpdates b (d :: dts) = Ball.runUpdates (b.update d) dts := rfl
      have h1 : b.radius ≤ (b.update d).radius := by
        rw [update_radius]
        exact grownRadius_mono b d hd
      have h2 : (b.update d).radius ≤ (b.update d).arena.radius * BALL_MAX_RATIO := by
        rw [update_radius, update_arena]
        exact grownRadius_le_cap b d hc
      obtain ⟨ih1, ih2⟩ := ih (b.update d) (fun x hx => h x (List.mem_cons_of_mem _ hx)) h2
      rw [update_arena] at ih2
      exact ⟨by rw [hstep]; exact h1.trans ih1, by rw [hstep]; exact ih2⟩

/-- C2: across any sequence of updates with nonnegative `dt`, the radius is
monotonically non-decreasing and never exceeds `arena.radius * BALL_MAX_RATIO`
when it starts at or below that cap; a single update grows the radius by at
most `GROWTH_PER_SEC * dt`, clamped at the cap. -/
theorem radius_monotone_bounded (b : Ball) (l₁ l₂ : List ℝ) (dt : ℝ)
    (h₁ : ∀ d ∈ l₁, 0 ≤ d) (h₂ : ∀ d ∈ l₂, 0 ≤ d) (hdt : 0 ≤ dt)
    (hcap : b.radius ≤ b.arena.radius * BALL_MAX_RATIO) :
    (b.runUpdates l₁).radius ≤ (b.runUpdates (l₁ ++ l₂)).radius
    ∧ (b.runUpdates (l₁ ++ l₂)).radius ≤ b.arena.radius * BALL_MAX_RATIO
    ∧ b.radius ≤ (b.update dt).radius
    ∧ (b.update dt).radius ≤ b.radius + GROWTH_PER_SEC * dt
    ∧ (b.update dt).radius ≤ b.arena.radius * BALL_MAX_RATIO := by
  have happ : Ball.runUpdates b (l₁ ++ l₂) = Ball.runUpdates (b.runUpdates l₁) l₂ := by
    simp [Ball.runUpdates, List.foldl_append]
  obtain ⟨ha1, ha2⟩ := runUpdates_radius l₁ b h₁ hcap
  have harena : (b.runUpdates l₁).arena = b.arena := runUpdates_arena l₁ b
  obtain ⟨hb1, hb2⟩ := runUpdates_radius l₂ (b.runUpdates l₁) h₂ (by rw [harena]; exact ha2)
  rw [harena] at hb2
  refine ⟨by rw [happ]; exact hb1, by rw [happ]; exact hb2, ?_, ?_, ?_⟩
  · rw [update_radius]
    exact grownRadius_mono b dt hdt
  · rw [update_radius]
    exact grownRadius_le_add b dt hdt
  · rw [update_radius]
    exact grownRadius_le_cap b dt hcap

/-- Concrete arena used by the witnesses (the one built by `App.__init__`). -/
noncomputable def arenaW : Arena := ⟨400, 300, 250⟩

/-- Concrete ball state used by the witnesses. -/
noncomputable def ballW : Ball := ⟨400, 175, 0, -150, 15, 0, arenaW, TrailManager.init⟩

/-- Witness for C2 at a concrete ball and concrete frame times. -/
theorem radius_monotone_bounded_witness :
    (∀ d ∈ [(1 : ℝ)], 0 ≤ d) ∧ (∀ d ∈ ([(2 : ℝ)] : List ℝ), 0 ≤ d) ∧ (0 : ℝ) ≤ 1
    ∧ ballW.radius ≤ ballW.arena.radius * BALL_MAX_RATIO
    ∧ ((ballW.runUpdates [(1 : ℝ)]).radius ≤ (ballW.runUpdates ([(1 : ℝ)] ++ [(2 : ℝ)])).radius
      ∧ (ballW.runUpdates ([(1 : ℝ)] ++ [(2 : ℝ)])).radius ≤ ballW.arena.radius * BALL_MAX_RATIO
      ∧ ballW.radius ≤ (ballW.update 1).radius
      ∧ (ballW.update 1).radius ≤ ballW.radius + GROWTH_PER_SEC * 1
      ∧ (ballW.update 1).radius ≤ ballW.arena.radius * BALL_MAX_RATIO) :=
  ⟨by norm_num, by norm_num, by norm_num,
    by norm_num [ballW, arenaW, BALL_MAX_RATIO],
    radius_monotone_bounded ballW [(1 : ℝ)] [(2 : ℝ)] 1 (by norm_num) (by norm_num)
      (by norm_num) (by norm_num [ballW, arenaW, BALL_MAX_RATIO])⟩

/-- Spec step 1 of `update(dt)`, modelled from the spec's wording: apply
gravity, `vy += GRAVITY * dt`. -/
noncomputable def gravityStep (dt : ℝ) (b : Ball) : Ball :=
  { b with vy := b.vy + GRAVITY * dt }

/-- Spec step 2 of `update(dt)`, modelled from the spec's wording:
multiplicative linear friction on both components, once per call, not scaled
by `dt`. -/
noncomputable def frictionStep (b : Ball) : Ball :=
  { b with vx := b.vx * LINEAR_FRICTION, vy := b.vy * LINEAR_FRICTION }

/-- Spec step 3 of `update(dt)`, modelled from the spec's wording: explicit
Euler integration, `x += vx*dt; y += vy*dt`. -/
noncomputable def eulerStep (dt : ℝ) (b : Ball) : Ball :=
  { b with x := b.x + b.vx * dt, y := b.y + b.vy * dt }

/-- C4: `Ball.update` performs gravity first, then the un-dt-scaled linear
friction, then explicit Euler integration, in that order, before any
collision handling; the resulting pre-collision velocity and position are the
composition of the three spec steps. -/
theorem update_kinematic_order (b : Ball) (dt : ℝ) :
    b.update dt = Ball.postKinematics (eulerStep dt (frictionStep (gravityStep dt b))) dt
    ∧ (eulerStep dt (frictionStep (gravityStep dt b))).vx = b.vx * LINEAR_FRICTION
    ∧ (eulerStep dt (frictionStep (gravityStep dt b))).vy =
        (b.vy + GRAVITY * dt) * LINEAR_FRICTION
    ∧ (eulerStep dt (frictionStep (gravityStep dt b))).x =
        b.x + b.vx * LINEAR_FRICTION * dt
    ∧ (eulerStep dt (frictionStep (gravityStep dt b))).y =
        b.y + (b.vy + GRAVITY * dt) * LINEAR_FRICTION * dt :=
  ⟨rfl, rfl, rfl, rfl, rfl⟩

lemma iterate_cycle_color (n : ℕ) :
    ∀ b : Ball, b.color_index < COLORS.length →
      (Ball.cycle_color^[n] b).color_index = (b.color_index + n) % COLORS.length := by
  induction n with
  | zero =>
      intro b h
      simpa using (Nat.mod_eq_of_lt h).symm
  | succ n ih =>
      intro b h
      rw [Function.iterate_succ_apply]
      have hlt : b.cycle_color.color_index < COLORS.length := by
        simp only [cycle_color_color_index]
        exact Nat.mod_lt _ (by simp [COLORS])
      rw [ih b.cycle_color hlt]
      simp only [cycle_color_color_index]
      have hlen : COLORS.length = 6 := rfl
      rw [hlen]
      omega

/-- C8: starting below the palette length, `N` collisions advance the color
index to `(start + N) mod len(COLORS)` (each collision advances it by one,
with wrap-around), and `Ball.update` changes the index exactly when the
boundary-collision branch is taken. -/
theorem color_cycling_mod (b : Ball) (n : ℕ) (dt : ℝ) (h : b.color_index < COLORS.length) :
    (Ball.cycle_color^[n] b).color_index = (b.color_index + n) % COLORS.length
    ∧ (b.hitsBoundary dt → (b.update dt).color_index = (b.color_index + 1) % COLORS.length)
    ∧ (¬ b.hitsBoundary dt → (b.update dt).color_index = b.color_index) :=
  ⟨iterate_cycle_color n b h, fun hc => update_color_index_hits b dt hc,
    fun hc => update_color_index_miss b dt hc⟩

/-- Witness for C8 at a concrete ball, seven collisions and `dt = 0`. -/
theorem color_cycling_mod_witness :
    ballW.color_index < COLORS.length
    ∧ ((Ball.cycle_color^[7] ballW).color_index = (ballW.color_index + 7) % COLORS.length
      ∧ (ballW.hitsBoundary 0 →
          (ballW.update 0).color_index = (ballW.color_index + 1) % COLORS.length)
      ∧ (¬ ballW.hitsBoundary 0 → (ballW.update 0).color_index = ballW.color_index)) :=
  ⟨by norm_num [ballW, COLORS], color_cycling_mod ballW 7 0 (by norm_num [ballW, COLORS])⟩

/-- C3: on a unit normal, the reflection decomposes the velocity into normal
component `vn` and tangential component `vt`, produces
`(-vn * RESTIUTION) * n + vt * TANGENTIAL_FRICTION`, and therefore scales the
normal magnitude by `RESTIUTION` and the tangential magnitude by
`TANGENTIAL_FRICTION`, each a strict decrease when the component is
nonzero. -/
theorem reflect_energy (b : Ball) (nx ny vn vtx vty : ℝ)
    (hn : nx ^ 2 + ny ^ 2 = 1)
    (hvn : vn = b.vx * nx + b.vy * ny)
    (htx : vtx = b.vx - vn * nx) (hty : vty = b.vy - vn * ny) :
    ((b.reflect_on_circle nx ny).vx = (-vn * RESTIUTION) * nx + vtx * TANGENTIAL_FRICTION
      ∧ (b.reflect_on_circle nx ny).vy = (-vn * RESTIUTION) * ny + vty * TANGENTIAL_FRICTION)
    ∧ (b.reflect_on_circle nx ny).vx * nx + (b.reflect_on_circle nx ny).vy * ny
        = -(vn * RESTIUTION)
    ∧ |(b.reflect_on_circle nx ny).vx * nx + (b.reflect_on_circle nx ny).vy * ny|
        = |vn| * RESTIUTION
    ∧ ((b.reflect_on_circle nx ny).vx -
          ((b.reflect_on_circle nx ny).vx * nx + (b.reflect_on_circle nx ny).vy * ny) * nx
            = vtx * TANGENTIAL_FRICTION
      ∧ (b.reflect_on_circle nx ny).vy -
          ((b.reflect_on_circle nx ny).vx * nx + (b.reflect_on_circle nx ny).vy * ny) * ny
            = vty * TANGENTIAL_FRICTION)
    ∧ Real.sqrt ((vtx * TANGENTIAL_FRICTION) ^ 2 + (vty * TANGENTIAL_FRICTION) ^ 2)
        = Real.sqrt (vtx ^ 2 + vty ^ 2) * TANGENTIAL_FRICTION
    ∧ (vn ≠ 0 →
        |(b.reflect_on_circle nx ny).vx * nx + (b.reflect_on_circle nx ny).vy * ny| < |vn|)
    ∧ (¬ (vtx = 0 ∧ vty = 0) →
        Real.sqrt ((vtx * TANGENTIAL_FRICTION) ^ 2 + (vty * TANGENTIAL_FRICTION) ^ 2)
          < Real.sqrt (vtx ^ 2 + vty ^ 2)) := by
  subst hvn
  subst htx
  subst hty
  have hdot : (b.reflect_on_circle nx ny).vx * nx + (b.reflect_on_circle nx ny).vy * ny
      = -((b.vx * nx + b.vy * ny) * RESTIUTION) := by
    rw [reflect_vx, reflect_vy]
    linear_combination
      (-((b.vx * nx + b.vy * ny) * (RESTIUTION + TANGENTIAL_FRICTION))) * hn
  have habs : |(b.reflect_on_circle nx ny).vx * nx + (b.reflect_on_circle nx ny).vy * ny|
      = |b.vx * nx + b.vy * ny| * RESTIUTION := by
    rw [hdot, abs_neg, abs_mul,
      abs_of_nonneg (show (0 : ℝ) ≤ RESTIUTION by norm_num [RESTIUTION])]
  have hRlt : RESTIUTION < 1 := by norm_num [RESTIUTION]
  have hTlt : TANGENTIAL_FRICTION < 1 := by norm_num [TANGENTIAL_FRICTION]
  have hsqrt : ∀ u v : ℝ,
      Real.sqrt ((u * TANGENTIAL_FRICTION) ^ 2 + (v * TANGENTIAL_FRICTION) ^ 2)
        = Real.sqrt (u ^ 2 + v ^ 2) * TANGENTIAL_FRICTION := by
    intro u v
    have h0 : (u * TANGENTIAL_FRICTION) ^ 2 + (v * TANGENTIAL_FRICTION) ^ 2
        = (u ^ 2 + v ^ 2) * TANGENTIAL_FRICTION ^ 2 := by ring
    rw [h0, Real.sqrt_mul (by positivity),
      Real.sqrt_sq (show (0 : ℝ) ≤ TANGENTIAL_FRICTION by norm_num [TANGENTIAL_FRICTION])]
  refine ⟨⟨?_, ?_⟩, hdot, habs, ⟨?_, ?_⟩, hsqrt _ _, ?_, ?_⟩
  · rw [reflect_vx]
  · rw [reflect_vy]
  · rw [hdot, reflect_vx]
    ring
  · rw [hdot, reflect_vy]
    ring
  · intro h0
    rw [habs]
    have hpos : 0 < |b.vx * nx + b.vy * ny| := abs_pos.mpr h0
    nlinarith
  · intro hne
    have hpos : 0 < (b.vx - (b.vx * nx + b.vy * ny) * nx) ^ 2 +
        (b.vy - (b.vx * nx + b.vy * ny) * ny) ^ 2 := by
      rcases not_and_or.mp hne with h0 | h0
      · have h1 : 0 < (b.vx - (b.vx * nx + b.vy * ny) * nx) ^ 2 :=
          pow_two_pos_of_ne_zero h0
        nlinarith [sq_nonneg (b.vy - (b.vx * nx + b.vy * ny) * ny)]
      · have h1 : 0 < (b.vy - (b.vx * nx + b.vy * ny) * ny) ^ 2 :=
          pow_two_pos_of_ne_zero h0
        nlinarith [sq_nonneg (b.vx - (b.vx * nx + b.vy * ny) * nx)]
    rw [hsqrt _ _]
    have hs : 0 < Real.sqrt ((b.vx - (b.vx * nx + b.vy * ny) * nx) ^ 2 +
        (b.vy - (b.vx * nx + b.vy * ny) * ny) ^ 2) := Real.sqrt_pos.mpr hpos
    nlinarith

/-- Concrete ball with velocity `(2, 3)`, used by the reflection witness. -/
noncomputable def ballV : Ball := ⟨0, 0, 2, 3, 1, 0, arenaW, TrailManager.init⟩

/-- Witness for C3 with velocity `(2, 3)` against the unit normal `(1, 0)`. -/
theorem reflect_energy_witness :
    ((1 : ℝ) ^ 2 + (0 : ℝ) ^ 2 = 1 ∧ (2 : ℝ) = ballV.vx * 1 + ballV.vy * 0
      ∧ (0 : ℝ) = ballV.vx - 2 * 1 ∧ (3 : ℝ) = ballV.vy - 2 * 0)
    ∧ (((ballV.reflect_on_circle 1 0).vx = (-2 * RESTIUTION) * 1 + 0 * TANGENTIAL_FRICTION
        ∧ (ballV.reflect_on_circle 1 0).vy = (-2 * RESTIUTION) * 0 + 3 * TANGENTIAL_FRICTION)
      ∧ (ballV.reflect_on_circle 1 0).vx * 1 + (ballV.reflect_on_circle 1 0).vy * 0
          = -(2 * RESTIUTION)
      ∧ |(ballV.reflect_on_circle 1 0).vx * 1 + (ballV.reflect_on_circle 1 0).vy * 0|
          = |(2 : ℝ)| * RESTIUTION
      ∧ ((ballV.reflect_on_circle 1 0).vx -
            ((ballV.reflect_on_circle 1 0).vx * 1 + (ballV.reflect_on_circle 1 0).vy * 0) * 1
              = 0 * TANGENTIAL_FRICTION
        ∧ (ballV.reflect_on_circle 1 0).vy -
            ((ballV.reflect_on_circle 1 0).vx * 1 + (ballV.reflect_on_circle 1 0).vy * 0) * 0
              = 3 * TANGENTIAL_FRICTION)
      ∧ Real.sqrt ((0 * TANGENTIAL_FRICTION) ^ 2 + (3 * TANGENTIAL_FRICTION) ^ 2)
          = Real.sqrt ((0 : ℝ) ^ 2 + 3 ^ 2) * TANGENTIAL_FRICTION
      ∧ ((2 : ℝ) ≠ 0 →
          |(ballV.reflect_on_circle 1 0).vx * 1 + (ballV.reflect_on_circle 1 0).vy * 0|
            < |(2 : ℝ)|)
      ∧ (¬ ((0 : ℝ) = 0 ∧ (3 : ℝ) = 0) →
          Real.sqrt ((0 * TANGENTIAL_FRICTION) ^ 2 + (3 * TANGENTIAL_FRICTION) ^ 2)
            < Real.sqrt ((0 : ℝ) ^ 2 + 3 ^ 2))) :=
  ⟨⟨by norm_num, by norm_num [ballV], by norm_num [ballV], by norm_num [ballV]⟩,
    reflect_energy ballV 1 0 2 0 3 (by norm_num) (by norm_num [ballV])
      (by norm_num [ballV]) (by norm_num [ballV])⟩

lemma sqrt_scaled_clamp (dx dy md : ℝ) (hmd : 0 ≤ md)
    (hne : Real.sqrt (dx ^ 2 + dy ^ 2) ≠ 0) :
    Real.sqrt ((dx / Real.sqrt (dx ^ 2 + dy ^ 2) * md) ^ 2 +
      (dy / Real.sqrt (dx ^ 2 + dy ^ 2) * md) ^ 2) = md := by
  have hS : (0 : ℝ) ≤ dx ^ 2 + dy ^ 2 := by positivity
  have hdp : 0 < Real.sqrt (dx ^ 2 + dy ^ 2) :=
    lt_of_le_of_ne (Real.sqrt_nonneg _) (Ne.symm hne)
  have harg : (dx / Real.sqrt (dx ^ 2 + dy ^ 2) * md) ^ 2 +
      (dy / Real.sqrt (dx ^ 2 + dy ^ 2) * md) ^ 2
      = (dx ^ 2 + dy ^ 2) * (md / Real.sqrt (dx ^ 2 + dy ^ 2)) ^ 2 := by ring
  rw [harg, Real.sqrt_mul hS, Real.sqrt_sq_eq_abs,
    abs_of_nonneg (div_nonneg hmd hdp.le), mul_comm,
    div_mul_cancel₀ md (ne_of_gt hdp)]

lemma handleBoundary_containment (c : Ball) (h : 0 ≤ c.arena.radius - c.radius) :
    c.handleBoundary.containment := by
  by_cases hc : c.arena.radius - c.radius <
      Real.sqrt ((c.x - c.arena.cx) ^ 2 + (c.y - c.arena.cy) ^ 2)
  · have hne : Real.sqrt ((c.x - c.arena.cx) ^ 2 + (c.y - c.arena.cy) ^ 2) ≠ 0 :=
      (h.trans_lt hc).ne'
    unfold Ball.containment
    simp only [Ball.handleBoundary]
    rw [if_pos hc, if_neg hne]
    simp only [cycle_color_x, cycle_color_y, cycle_color_radius, cycle_color_arena,
      reflect_x, reflect_y, reflect_radius, reflect_arena]
    have e1 : c.arena.cx + (c.x - c.arena.cx) /
        Real.sqrt ((c.x - c.arena.cx) ^ 2 + (c.y - c.arena.cy) ^ 2) *
        (c.arena.radius - c.radius) - c.arena.cx
        = (c.x - c.arena.cx) /
            Real.sqrt ((c.x - c.arena.cx) ^ 2 + (c.y - c.arena.cy) ^ 2) *
            (c.arena.radius - c.radius) := by ring
    have e2 : c.arena.cy + (c.y - c.arena.cy) /
        Real.sqrt ((c.x - c.arena.cx) ^ 2 + (c.y - c.arena.cy) ^ 2) *
        (c.arena.radius - c.radius) - c.arena.cy
        = (c.y - c.arena.cy) /
            Real.sqrt ((c.x - c.arena.cx) ^ 2 + (c.y - c.arena.cy) ^ 2) *
            (c.arena.radius - c.radius) := by ring
    rw [e1, e2, sqrt_scaled_clamp _ _ _ h hne]
  · rw [handleBoundary_eq_self c (not_lt.mp hc)]
    unfold Ball.containment
    exact not_lt.mp hc

/-- C1 (amended): for a nonnegative arena radius, the containment invariant
is preserved by every update. -/
theorem update_preserves_containment (b : Ball) (dt : ℝ) (hR : 0 ≤ b.arena.radius)
    (hinv : b.containment) (hdt : 0 ≤ dt) : (b.update dt).containment := by
  have hrad : b.radius ≤ b.arena.radius := by
    unfold Ball.containment at hinv
    have hnn := Real.sqrt_nonneg ((b.x - b.arena.cx) ^ 2 + (b.y - b.arena.cy) ^ 2)
    linarith
  have hgr : b.grownRadius dt ≤ b.arena.radius := grownRadius_le_arena b dt hR hrad
  have hres := handleBoundary_containment
    { b.afterIntegration dt with radius := (b.afterIntegration dt).grownRadius dt }
    (by
      dsimp only
      simp only [afterIntegration_arena, grownRadius_afterIntegration]
      linarith)
  exact hres

/-- Concrete negative-radius arena exhibiting the failure of C1 as stated. -/
noncomputable def arenaNeg : Arena := ⟨0, 0, -1⟩

/-- Concrete ball inside `arenaNeg` that satisfies the containment invariant. -/
noncomputable def ballNeg : Ball := ⟨0, 0, 0, 0, -2, 0, arenaNeg, TrailManager.init⟩

/-- Counterexample to C1 as stated: `ballNeg` satisfies the containment
invariant and `dt = 1` is nonnegative, yet the invariant is false after
`Ball.update` (the arena radius is negative, so the clamp lands outside the
allowed disc). -/
theorem containment_claim_counterexample :
    ballNeg.containment ∧ (0 : ℝ) ≤ 1 ∧ ¬ (ballNeg.update 1).containment := by
  refine ⟨?_, by norm_num, ?_⟩
  · unfold Ball.containment
    norm_num [ballNeg, arenaNeg, Real.sqrt_zero]
  · have hrad : (ballNeg.update 1).radius = -(4 / 5) := by
      rw [update_radius]
      norm_num [Ball.grownRadius, ballNeg, arenaNeg, BALL_MAX_RATIO, GROWTH_PER_SEC,
        min_def]
    intro hcon
    unfold Ball.containment at hcon
    rw [update_arena, hrad] at hcon
    have hnn := Real.sqrt_nonneg
      (((ballNeg.update 1).x - ballNeg.arena.cx) ^ 2 +
        ((ballNeg.update 1).y - ballNeg.arena.cy) ^ 2)
    have harr : ballNeg.arena.radius = -1 := rfl
    rw [harr] at hcon
    norm_num at hcon
    linarith

/-- Witness for the amended C1 at a concrete ball at the arena center. -/
noncomputable def arenaC : Arena := ⟨0, 0, 100⟩

/-- Concrete ball at the center of `arenaC`, at rest. -/
noncomputable def ballC : Ball := ⟨0, 0, 0, 0, 15, 0, arenaC, TrailManager.init⟩

/-- Witness for the amended C1. -/
theorem update_preserves_containment_witness :
    (0 : ℝ) ≤ ballC.arena.radius ∧ ballC.containment ∧ (0 : ℝ) ≤ 1
    ∧ (ballC.update 1).containment := by
  have h1 : (0 : ℝ) ≤ ballC.arena.radius := by norm_num [ballC, arenaC]
  have h2 : ballC.containment := by
    unfold Ball.containment
    norm_num [ballC, arenaC, Real.sqrt_zero]
  exact ⟨h1, h2, by norm_num,
    update_preserves_containment ballC 1 h1 h2 (by norm_num)⟩

lemma update_eq_of_no_hit (b : Ball) (dt : ℝ)
    (h : Real.sqrt ((b.x + b.vx * LINEAR_FRICTION * dt - b.arena.cx) ^ 2 +
        (b.y + (b.vy + GRAVITY * dt) * LINEAR_FRICTION * dt - b.arena.cy) ^ 2)
      ≤ b.arena.radius - b.grownRadius dt) :
    b.update dt =
      { b.afterIntegration dt with
        radius := b.grownRadius dt
        trails := TrailManager.update
          (b.trails.push_position (b.x + b.vx * LINEAR_FRICTION * dt)
            (b.y + (b.vy + GRAVITY * dt) * LINEAR_FRICTION * dt)) dt } := by
  have hself : Ball.handleBoundary
      { b.afterIntegration dt with radius := (b.afterIntegration dt).grownRadius dt } =
      { b.afterIntegration dt with radius := (b.afterIntegration dt).grownRadius dt } := by
    apply handleBoundary_eq_self
    dsimp only
    simp only [afterIntegration_x, afterIntegration_y, afterIntegration_arena,
      grownRadius_afterIntegration]
    exact h
  show Ball.postKinematics (b.afterIntegration dt) dt = _
  unfold Ball.postKinematics
  rw [hself]
  rfl

lemma update_no_collision (b : Ball) (dt : ℝ)
    (h : Real.sqrt ((b.x + b.vx * LINEAR_FRICTION * dt - b.arena.cx) ^ 2 +
        (b.y + (b.vy + GRAVITY * dt) * LINEAR_FRICTION * dt - b.arena.cy) ^ 2)
      ≤ b.arena.radius - b.grownRadius dt) :
    ¬ b.hitsBoundary dt
    ∧ (b.update dt).x = b.x + b.vx * LINEAR_FRICTION * dt
    ∧ (b.update dt).y = b.y + (b.vy + GRAVITY * dt) * LINEAR_FRICTION * dt
    ∧ (b.update dt).vx = b.vx * LINEAR_FRICTION
    ∧ (b.update dt).vy = (b.vy + GRAVITY * dt) * LINEAR_FRICTION
    ∧ (b.update dt).color_index = b.color_index
    ∧ (b.update dt).trails.impacts = (TrailManager.update b.trails dt).impacts := by
  have hb := update_eq_of_no_hit b dt h
  refine ⟨?_, ?_, ?_, ?_, ?_, ?_, ?_⟩
  · unfold Ball.hitsBoundary
    exact not_lt.mpr h
  all_goals rw [hb]
  all_goals rfl

/-- C5 (amended): for a ball at rest at the arena center and a positive `dt`
small enough that the integrated fall stays strictly inside the boundary,
one update leaves `vx = 0`, sets `vy` to `GRAVITY * dt * LINEAR_FRICTION`
(the friction factor is applied after gravity, so the increase is NOT exactly
`GRAVITY * dt`), moves the position by the integrated velocity, and takes no
collision branch. -/
theorem center_gravity_step (b : Ball) (dt : ℝ)
    (hx : b.x = b.arena.cx) (hy : b.y = b.arena.cy) (hvx : b.vx = 0) (hvy : b.vy = 0)
    (hdt : 0 < dt)
    (hsmall : GRAVITY * dt * LINEAR_FRICTION * dt ≤
      b.arena.radius - (b.radius + GROWTH_PER_SEC * dt)) :
    (b.update dt).vy = GRAVITY * dt * LINEAR_FRICTION
    ∧ (b.update dt).vx = 0
    ∧ (b.update dt).x = b.arena.cx
    ∧ (b.update dt).y = b.arena.cy + GRAVITY * dt * LINEAR_FRICTION * dt
    ∧ ¬ b.hitsBoundary dt
    ∧ (b.update dt).color_index = b.color_index
    ∧ (b.update dt).trails.impacts = (TrailManager.update b.trails dt).impacts := by
  have hdx : b.x + b.vx * LINEAR_FRICTION * dt - b.arena.cx = 0 := by
    rw [hx, hvx]
    ring
  have hdy : b.y + (b.vy + GRAVITY * dt) * LINEAR_FRICTION * dt - b.arena.cy =
      GRAVITY * dt * LINEAR_FRICTION * dt := by
    rw [hy, hvy]
    ring
  have hdynn : 0 ≤ GRAVITY * dt * LINEAR_FRICTION * dt := by
    have h1 : (0 : ℝ) ≤ GRAVITY := by norm_num [GRAVITY]
    have h2 : (0 : ℝ) ≤ LINEAR_FRICTION := by norm_num [LINEAR_FRICTION]
    nlinarith [mul_nonneg (mul_nonneg h1 h2) (sq_nonneg dt)]
  have hdist : Real.sqrt ((b.x + b.vx * LINEAR_FRICTION * dt - b.arena.cx) ^ 2 +
      (b.y + (b.vy + GRAVITY * dt) * LINEAR_FRICTION * dt - b.arena.cy) ^ 2)
      = GRAVITY * dt * LINEAR_FRICTION * dt := by
    rw [hdx, hdy]
    have harg : (0 : ℝ) ^ 2 + (GRAVITY * dt * LINEAR_FRICTION * dt) ^ 2
        = (GRAVITY * dt * LINEAR_FRICTION * dt) ^ 2 := by ring
    rw [harg, Real.sqrt_sq hdynn]
  have hgrown : b.grownRadius dt ≤ b.radius + GROWTH_PER_SEC * dt :=
    grownRadius_le_add b dt hdt.le
  have h : Real.sqrt ((b.x + b.vx * LINEAR_FRICTION * dt - b.arena.cx) ^ 2 +
      (b.y + (b.vy + GRAVITY * dt) * LINEAR_FRICTION * dt - b.arena.cy) ^ 2)
      ≤ b.arena.radius - b.grownRadius dt := by
    rw [hdist]
    linarith
  obtain ⟨hnb, hux, huy, huvx, huvy, hci, him⟩ := update_no_collision b dt h
  refine ⟨?_, ?_, ?_, ?_, hnb, hci, him⟩
  · rw [huvy, hvy]
    ring
  · rw [huvx, hvx]
    ring
  · rw [hux, hvx, hx]
    ring
  · rw [huy, hvy, hy]
    ring

/-- Counterexample to C5 as stated: a ball at rest at the center of `arenaC`,
with `dt = 0.1`, takes no collision branch, yet `vy` after the update is
`19.98`, not `vy + GRAVITY * 0.1 = 20` — the claimed "increases by exactly
GRAVITY * dt" fails because linear friction multiplies the velocity after
gravity is added. -/
theorem center_gravity_claim_counterexample :
    ballC.x = ballC.arena.cx ∧ ballC.y = ballC.arena.cy
    ∧ ballC.vx = 0 ∧ ballC.vy = 0 ∧ (0 : ℝ) < 0.1
    ∧ ¬ ballC.hitsBoundary 0.1
    ∧ (ballC.update 0.1).vy ≠ ballC.vy + GRAVITY * 0.1 := by
  have h : Real.sqrt ((ballC.x + ballC.vx * LINEAR_FRICTION * 0.1 - ballC.arena.cx) ^ 2 +
      (ballC.y + (ballC.vy + GRAVITY * 0.1) * LINEAR_FRICTION * 0.1 - ballC.arena.cy) ^ 2)
      ≤ ballC.arena.radius - ballC.grownRadius 0.1 := by
    have hdx : ballC.x + ballC.vx * LINEAR_FRICTION * 0.1 - ballC.arena.cx = 0 := by
      norm_num [ballC, arenaC, LINEAR_FRICTION]
    have hdy : ballC.y + (ballC.vy + GRAVITY * 0.1) * LINEAR_FRICTION * 0.1 -
        ballC.arena.cy = 999 / 500 := by
      norm_num [ballC, arenaC, LINEAR_FRICTION, GRAVITY]
    have hgr : ballC.grownRadius 0.1 = 81 / 5 := by
      norm_num [Ball.grownRadius, ballC, arenaC, BALL_MAX_RATIO, GROWTH_PER_SEC, min_def]
    rw [hdx, hdy, hgr]
    have harg : (0 : ℝ) ^ 2 + (999 / 500) ^ 2 = (999 / 500) ^ 2 := by ring
    rw [harg, Real.sqrt_sq (by norm_num : (0 : ℝ) ≤ 999 / 500)]
    norm_num [ballC, arenaC]
  obtain ⟨hnb, _, _, _, huvy, _, _⟩ := update_no_collision ballC 0.1 h
  refine ⟨rfl, rfl, rfl, rfl, by norm_num, hnb, ?_⟩
  rw [huvy]
  norm_num [ballC, GRAVITY, LINEAR_FRICTION]

/-- Witness for the amended C5 at `ballC` with `dt = 0.1`. -/
theorem center_gravity_step_witness :
    (ballC.x = ballC.arena.cx ∧ ballC.y = ballC.arena.cy
      ∧ ballC.vx = 0 ∧ ballC.vy = 0 ∧ (0 : ℝ) < 0.1
      ∧ GRAVITY * 0.1 * LINEAR_FRICTION * 0.1 ≤
        ballC.arena.radius - (ballC.radius + GROWTH_PER_SEC * 0.1))
    ∧ ((ballC.update 0.1).vy = GRAVITY * 0.1 * LINEAR_FRICTION
      ∧ (ballC.update 0.1).vx = 0
      ∧ (ballC.update 0.1).x = ballC.arena.cx
      ∧ (ballC.update 0.1).y = ballC.arena.cy + GRAVITY * 0.1 * LINEAR_FRICTION * 0.1
      ∧ ¬ ballC.hitsBoundary 0.1
      ∧ (ballC.update 0.1).color_index = ballC.color_index
      ∧ (ballC.update 0.1).trails.impacts =
          (TrailManager.update ballC.trails 0.1).impacts) :=
  ⟨⟨rfl, rfl, rfl, rfl, by norm_num,
      by norm_num [ballC, arenaC, GRAVITY, LINEAR_FRICTION, GROWTH_PER_SEC]⟩,
    center_gravity_step ballC 0.1 rfl rfl rfl rfl (by norm_num)
      (by norm_num [ballC, arenaC, GRAVITY, LINEAR_FRICTION, GROWTH_PER_SEC])⟩

lemma handleBoundary_center (c : Ball) (hx : c.x = c.arena.cx) (hy : c.y = c.arena.cy)
    (hr : c.arena.radius - c.radius < 0) :
    c.handleBoundary.x = c.arena.cx + (c.arena.radius - c.radius)
    ∧ c.handleBoundary.y = c.arena.cy
    ∧ c.handleBoundary.vx = -c.vx * RESTIUTION
    ∧ c.handleBoundary.vy = c.vy * TANGENTIAL_FRICTION := by
  have hdx : c.x - c.arena.cx = 0 := by
    rw [hx]
    ring
  have hdy : c.y - c.arena.cy = 0 := by
    rw [hy]
    ring
  have hdist : Real.sqrt ((c.x - c.arena.cx) ^ 2 + (c.y - c.arena.cy) ^ 2) = 0 := by
    rw [hdx, hdy]
    norm_num [Real.sqrt_zero]
  simp only [Ball.handleBoundary]
  rw [hdist, if_pos hr]
  norm_num [Ball.reflect_on_circle, Ball.cycle_color]

/-- C9: when the post-integration distance to the arena center is exactly
zero and the collision branch is taken (`max_dist < 0`), the fallback normal
`(1, 0)` is used deterministically: the position is clamped along the x-axis
to `center + (1, 0) * max_dist` and the velocity is reflected against the
normal `(1, 0)`; the total real-valued definition never divides by the zero
distance. -/
theorem degenerate_normal_fallback (b : Ball) (dt : ℝ)
    (hx : b.x + b.vx * LINEAR_FRICTION * dt = b.arena.cx)
    (hy : b.y + (b.vy + GRAVITY * dt) * LINEAR_FRICTION * dt = b.arena.cy)
    (hr : b.arena.radius - b.grownRadius dt < 0) :
    (b.update dt).x = b.arena.cx + (b.arena.radius - b.grownRadius dt)
    ∧ (b.update dt).y = b.arena.cy
    ∧ (b.update dt).vx = -(b.vx * LINEAR_FRICTION) * RESTIUTION
    ∧ (b.update dt).vy = (b.vy + GRAVITY * dt) * LINEAR_FRICTION * TANGENTIAL_FRICTION
    ∧ (b.update dt).radius = b.grownRadius dt := by
  have e1 : (b.update dt).x = (Ball.handleBoundary
      { b.afterIntegration dt with
        radius := (b.afterIntegration dt).grownRadius dt }).x := rfl
  have e2 : (b.update dt).y = (Ball.handleBoundary
      { b.afterIntegration dt with
        radius := (b.afterIntegration dt).grownRadius dt }).y := rfl
  have e3 : (b.update dt).vx = (Ball.handleBoundary
      { b.afterIntegration dt with
        radius := (b.afterIntegration dt).grownRadius dt }).vx := rfl
  have e4 : (b.update dt).vy = (Ball.handleBoundary
      { b.afterIntegration dt with
        radius := (b.afterIntegration dt).grownRadius dt }).vy := rfl
  obtain ⟨k1, k2, k3, k4⟩ := handleBoundary_center
    { b.afterIntegration dt with radius := (b.afterIntegration dt).grownRadius dt }
    (by
      dsimp only
      simp only [afterIntegration_x, afterIntegration_arena]
      exact hx)
    (by
      dsimp only
      simp only [afterIntegration_y, afterIntegration_arena]
      exact hy)
    (by
      dsimp only
      simp only [afterIntegration_arena, grownRadius_afterIntegration]
      exact hr)
  refine ⟨?_, ?_, ?_, ?_, update_radius b dt⟩
  · rw [e1, k1]
    dsimp only
    simp only [afterIntegration_arena, grownRadius_afterIntegration]
  · rw [e2, k2]
    dsimp only
    simp only [afterIntegration_arena]
  · rw [e3, k3]
    dsimp only
    simp only [afterIntegration_vx]
  · rw [e4, k4]
    dsimp only
    simp only [afterIntegration_vy]

/-- Degenerate arena for the C9 witness: the ball radius exceeds the arena
radius, so the collision branch fires even at distance zero. -/
noncomputable def arenaD : Arena := ⟨0, 0, 1⟩

/-- Concrete ball exactly at the center of `arenaD` with radius 2. -/
noncomputable def ballD : Ball := ⟨0, 0, 0, 0, 2, 0, arenaD, TrailManager.init⟩

/-- Witness for C9 at `ballD` with `dt = 0`. -/
theorem degenerate_normal_fallback_witness :
    (ballD.x + ballD.vx * LINEAR_FRICTION * 0 = ballD.arena.cx
      ∧ ballD.y + (ballD.vy + GRAVITY * 0) * LINEAR_FRICTION * 0 = ballD.arena.cy
      ∧ ballD.arena.radius - ballD.grownRadius 0 < 0)
    ∧ ((ballD.update 0).x = ballD.arena.cx + (ballD.arena.radius - ballD.grownRadius 0)
      ∧ (ballD.update 0).y = ballD.arena.cy
      ∧ (ballD.update 0).vx = -(ballD.vx * LINEAR_FRICTION) * RESTIUTION
      ∧ (ballD.update 0).vy =
          (ballD.vy + GRAVITY * 0) * LINEAR_FRICTION * TANGENTIAL_FRICTION
      ∧ (ballD.update 0).radius = ballD.grownRadius 0) :=
  ⟨⟨by norm_num [ballD, arenaD], by norm_num [ballD, arenaD],
      by norm_num [Ball.grownRadius, ballD, arenaD, BALL_MAX_RATIO]⟩,
    degenerate_normal_fallback ballD 0 (by norm_num [ballD, arenaD])
      (by norm_num [ballD, arenaD])
      (by norm_num [Ball.grownRadius, ballD, arenaD, BALL_MAX_RATIO])⟩

end BouncyBall
